import Mathlib

/-
Shallow embedding of the forecasting / hyperparameter-tuning core of the
CS3_Barnett repository (src/src/routes/forecast.tsx, src/unnamed/part_001,
src/unnamed/part_004).

JavaScript numbers are modelled with exact rational arithmetic, extended
with explicit positive/negative infinity and NaN (`JSNum`) so that the
division-by-zero behaviour of `(baseline - prev.value) / (last.year -
prev.year)` is represented faithfully.  `x.toFixed(d)` followed by
`Number(...)` is modelled as decimal rounding (ties to the larger value,
as the ECMAScript ToFixed algorithm specifies) on rationals.  The JS `%`
operator (remainder with the sign of the dividend) is `jsRem`.
-/

/-- Remainder with the sign of the dividend, the semantics of the JavaScript
`%` operator on integers. -/
def jsRem (a b : ℤ) : ℤ := Int.tmod a b

/-- Model of `Number(x.toFixed(d))` for a rational `x`: round `x` to `d`
decimal places, ties going to the larger value (ECMAScript ToFixed picks the
larger candidate integer on a tie). -/
def tfix (d : ℕ) (x : ℚ) : ℚ := (⌊x * 10 ^ d + 1 / 2⌋ : ℚ) / 10 ^ d

/-- JavaScript number semantics: an exact rational, or one of the special
values `Infinity`, `-Infinity`, `NaN`. -/
inductive JSNum where
  | num (q : ℚ)
  | pinf
  | ninf
  | nan
deriving DecidableEq, Repr, Inhabited

namespace JSNum

/-- JavaScript addition on `JSNum`. -/
def add : JSNum → JSNum → JSNum
  | nan, _ => nan
  | _, nan => nan
  | num a, num b => num (a + b)
  | num _, pinf => pinf
  | num _, ninf => ninf
  | pinf, num _ => pinf
  | pinf, pinf => pinf
  | pinf, ninf => nan
  | ninf, num _ => ninf
  | ninf, pinf => nan
  | ninf, ninf => ninf

/-- JavaScript negation on `JSNum`. -/
def neg : JSNum → JSNum
  | num a => num (-a)
  | pinf => ninf
  | ninf => pinf
  | nan => nan

/-- JavaScript subtraction on `JSNum`. -/
def sub (a b : JSNum) : JSNum := add a (neg b)

/-- JavaScript multiplication on `JSNum` (`Infinity * 0 = NaN`). -/
def mul : JSNum → JSNum → JSNum
  | nan, _ => nan
  | _, nan => nan
  | num a, num b => num (a * b)
  | num a, pinf => if 0 < a then pinf else if a < 0 then ninf else nan
  | num a, ninf => if 0 < a then ninf else if a < 0 then pinf else nan
  | pinf, num b => if 0 < b then pinf else if b < 0 then ninf else nan
  | ninf, num b => if 0 < b then ninf else if b < 0 then pinf else nan
  | pinf, pinf => pinf
  | pinf, ninf => ninf
  | ninf, pinf => ninf
  | ninf, ninf => pinf

/-- JavaScript division on `JSNum`: a nonzero finite value divided by zero
gives a signed infinity, `0 / 0` gives `NaN`. -/
def div : JSNum → JSNum → JSNum
  | nan, _ => nan
  | _, nan => nan
  | num a, num b =>
      if b = 0 then (if 0 < a then pinf else if a < 0 then ninf else nan)
      else num (a / b)
  | num _, pinf => num 0
  | num _, ninf => num 0
  | pinf, num b => if 0 ≤ b then pinf else ninf
  | ninf, num b => if 0 ≤ b then ninf else pinf
  | pinf, pinf => nan
  | pinf, ninf => nan
  | ninf, pinf => nan
  | ninf, ninf => nan

/-- Model of `Math.min` (returns `NaN` whenever an argument is `NaN`). -/
def jsMin : JSNum → JSNum → JSNum
  | nan, _ => nan
  | _, nan => nan
  | num a, num b => num (min a b)
  | num _, ninf => ninf
  | num a, pinf => num a
  | ninf, _ => ninf
  | pinf, b => b

/-- Model of `Math.max` (returns `NaN` whenever an argument is `NaN`). -/
def jsMax : JSNum → JSNum → JSNum
  | nan, _ => nan
  | _, nan => nan
  | num a, num b => num (max a b)
  | num _, pinf => pinf
  | num a, ninf => num a
  | pinf, _ => pinf
  | ninf, b => b

/-- Model of `Math.round`: round half toward positive infinity. -/
def jsRound : JSNum → JSNum
  | num q => num (⌊q + 1 / 2⌋ : ℚ)
  | pinf => pinf
  | ninf => ninf
  | nan => nan

end JSNum

/-- Activation kinds appearing across the route files (forecast.tsx restricts
its own `Activation` type to ReLU, part_001/part_004 use all three). -/
inductive Activation where
  | ReLU
  | Tanh
  | Sigmoid
deriving DecidableEq, Repr, Inhabited

/-- Record `TunedParams` of forecast.tsx / part_004.  The `optimizer` label is
`none` when the JS array access `optimizers[...]` would yield `undefined`
(negative index, possible for negative seeds). -/
structure TunedParams where
  lookback : ℕ
  neuronsLayer1 : ℕ
  neuronsLayer2 : ℕ
  activation : Activation
  optimizer : Option String
deriving DecidableEq, Repr, Inhabited

/-- Loaded historical series point (`loadAgeSeries` produces finite positive
numbers, so the value is a plain rational). -/
structure AgeSeriesPoint where
  year : ℤ
  value : ℚ
deriving DecidableEq, Repr, Inhabited

/-- Point of the rolling series inside the forecast generator: predicted
values are JavaScript numbers and may in principle be `NaN`. -/
structure JSPoint where
  year : ℤ
  value : JSNum
deriving DecidableEq, Repr, Inhabited

/-- Injection of a loaded history point into the rolling-series type. -/
def AgeSeriesPoint.toJS (p : AgeSeriesPoint) : JSPoint := ⟨p.year, .num p.value⟩

/-- Activation-boost table of `predictNextValue` (forecast.tsx line 259-260):
ReLU 1.05, Tanh 1.02, otherwise 0.98. -/
def activationBoostF : Activation → ℚ
  | .ReLU => 1.05
  | .Tanh => 1.02
  | .Sigmoid => 0.98

/-- Model of `history[history.length - 1]` (only used under a non-emptiness
guard, default irrelevant). -/
def lastOf (history : List JSPoint) : JSPoint :=
  history.getLastD default

/-- Model of `history.slice(Math.max(0, history.length - params.lookback))`
(forecast.tsx line 248). -/
def windowOf (history : List JSPoint) (lookback : ℕ) : List JSPoint :=
  history.drop (history.length - lookback)

/-- Baseline of `predictNextValue` (forecast.tsx lines 249-252): mean of the
window values, falling back to the last value on an empty window. -/
def baselineOf (history : List JSPoint) (lookback : ℕ) : JSNum :=
  let w := windowOf history lookback
  if 0 < w.length then
    JSNum.div (w.foldl (fun s p => JSNum.add s p.value) (.num 0)) (.num w.length)
  else
    (lastOf history).value

/-- Reference point `prev = history[Math.max(0, history.length - params.lookback - 1)]`
(forecast.tsx line 254). -/
def prevOf (history : List JSPoint) (lookback : ℕ) : JSPoint :=
  history.getD (history.length - lookback - 1) default

/-- Raw slope of `predictNextValue` (forecast.tsx lines 255-256); the division
is JavaScript division, so a zero year-delta produces an infinity or `NaN`. -/
def rawSlopeOf (history : List JSPoint) (lookback : ℕ) : JSNum :=
  if 1 < history.length then
    JSNum.div (JSNum.sub (baselineOf history lookback) (prevOf history lookback).value)
      (.num (((lastOf history).year - (prevOf history lookback).year : ℤ) : ℚ))
  else
    .num 0

/-- Clamped slope of `predictNextValue` (forecast.tsx line 257):
`Math.max(-baseline * 0.5, Math.min(baseline * 0.5, rawSlope))`. -/
def slopeOf (history : List JSPoint) (lookback : ℕ) : JSNum :=
  JSNum.jsMax (JSNum.mul (JSNum.neg (baselineOf history lookback)) (.num 0.5))
    (JSNum.jsMin (JSNum.mul (baselineOf history lookback) (.num 0.5))
      (rawSlopeOf history lookback))

/-- Model of `predictNextValue` (forecast.tsx lines 241-266). -/
def predictNextValue (history : List JSPoint) (params : TunedParams) (seed : ℤ) :
    Option JSNum :=
  if history.length = 0 then none
  else
    let baseline := baselineOf history params.lookback
    let slope := slopeOf history params.lookback
    let jitter :=
      JSNum.mul (JSNum.mul (.num ((jsRem seed 5 - 2 : ℤ) : ℚ)) (.num 0.01)) baseline
    let noise := JSNum.mul (.num 0.02) baseline
    let value :=
      JSNum.jsMax (.num 0)
        (JSNum.add
          (JSNum.sub
            (JSNum.add baseline (JSNum.mul slope (.num (activationBoostF params.activation))))
            noise)
          jitter)
    some (JSNum.jsRound value)

/-- Loop body of `generateForecastFromHistory` (forecast.tsx lines 230-236):
`fuel` counts the remaining iterations, `i` is the current year offset. -/
def genAux (params : TunedParams) (seed startYear : ℤ) :
    ℕ → ℕ → List JSPoint → List JSPoint
  | 0, _, _ => []
  | fuel + 1, i, rolling =>
    let year := startYear + i
    let predicted := predictNextValue rolling params (seed + i)
    let value := JSNum.jsMax (.num 0) (predicted.getD (.num 0))
    ⟨year, value⟩ :: genAux params seed startYear fuel (i + 1) (rolling ++ [⟨year, value⟩])

/-- Model of `generateForecastFromHistory` (forecast.tsx lines 216-239). -/
def generateForecastFromHistory (history : List AgeSeriesPoint) (horizonYears : ℕ)
    (params : TunedParams) (seed : ℤ) : List JSPoint :=
  if history.length = 0 then []
  else
    genAux params seed (history.getLastD default).year horizonYears 1
      (history.map AgeSeriesPoint.toJS)

/-- Activation-boost table of `computeSyntheticMetrics` (forecast.tsx lines
84-89 and part_004 lines 81-82): ReLU 0.95, Tanh 0.98, otherwise 1.03. -/
def activationBoostS : Activation → ℚ
  | .ReLU => 0.95
  | .Tanh => 0.98
  | .Sigmoid => 1.03

/-- Intermediate `baseLoss` of `computeSyntheticMetrics` (forecast.tsx line 91). -/
def baseLossOf (params : TunedParams) : ℚ :=
  0.01 + 0.002 * max 0 ((params.lookback : ℚ) - 3) +
    0.0015 * ((params.neuronsLayer1 + params.neuronsLayer2 : ℚ) / 200)

/-- Intermediate `jitter` of `computeSyntheticMetrics` (forecast.tsx line 92). -/
def selJitter (seed : ℤ) : ℚ := ((jsRem seed 11 - 5 : ℤ) : ℚ) * 0.0006

/-- Intermediate numeric `trainingLoss` of `computeSyntheticMetrics`, before
`toFixed(4)` formatting (forecast.tsx line 94). -/
def rawTrainingLoss (params : TunedParams) (seed : ℤ) : ℚ :=
  max 0.001 (baseLossOf params * activationBoostS params.activation + selJitter seed)

/-- Intermediate numeric `validationLoss` of `computeSyntheticMetrics`, before
`toFixed(4)` formatting (forecast.tsx lines 95-98). -/
def rawValidationLoss (params : TunedParams) (seed : ℤ) : ℚ :=
  max 0.001 (rawTrainingLoss params seed + 0.0025 + |selJitter seed| * 0.5)

/-- Intermediate numeric `mae` of `computeSyntheticMetrics` (forecast.tsx
lines 100-101); `history.length || 1` composed with `Math.max(1, n)` is
`max 1 length`. -/
def rawMae (history : List AgeSeriesPoint) (params : TunedParams) : ℚ :=
  0.05 + (params.lookback : ℚ) / 50 + 1 / max 1 (history.length : ℚ) * 0.1

/-- Metrics record returned by `computeSyntheticMetrics`: the values of the
fixed-precision strings (loss 4 decimals, mae 3 decimals). -/
structure Metrics where
  trainingLoss : ℚ
  validationLoss : ℚ
  mae : ℚ
deriving DecidableEq, Repr, Inhabited

/-- Model of `computeSyntheticMetrics` (forecast.tsx lines 77-108, identical
in part_004 lines 78-98): the returned fields carry the `toFixed`-formatted
values. -/
def computeSyntheticMetrics (history : List AgeSeriesPoint) (params : TunedParams)
    (seed : ℤ) : Metrics :=
  { trainingLoss := tfix 4 (rawTrainingLoss params seed)
    validationLoss := tfix 4 (rawValidationLoss params seed)
    mae := tfix 3 (rawMae history params) }

/-- Fixed lookback grid of `tuneHyperparameters` (forecast.tsx line 113). -/
def lookbacks : List ℕ := [2, 3, 4, 5, 6]

/-- Fixed first-layer-unit grid of `tuneHyperparameters` (forecast.tsx line 114). -/
def neurons1 : List ℕ := [32, 64, 96, 128]

/-- Fixed second-layer-unit grid of `tuneHyperparameters` (forecast.tsx line 115). -/
def neurons2 : List ℕ := [0, 16, 32, 64]

/-- Optimizer labels of `tuneHyperparameters` (forecast.tsx line 116). -/
def optimizers : List String := ["Adam", "RMSProp", "SGD"]

/-- Activation list of forecast.tsx (line 30): ReLU only. -/
def ACTIVATIONS : List Activation := [.ReLU]

/-- Activation list of part_001 / part_004 (line 19): all three kinds. -/
def ACTIVATIONSP4 : List Activation := [.ReLU, .Tanh, .Sigmoid]

/-- JavaScript array indexing `l[i]`: `undefined` (here `none`) outside the
valid range, in particular for the negative indices a negative seed produces
in `optimizers[(lb + n1 + n2 + seed) % optimizers.length]`. -/
def jsIndex (l : List String) (i : ℤ) : Option String :=
  if 0 ≤ i then l.get? i.toNat else none

/-- Candidate grid of `tuneHyperparameters` (forecast.tsx lines 111-133,
part_004 lines 101-123), parameterized by the activation list, which is the
only difference between the two routes. -/
def mkCandidates (acts : List Activation) (seed : ℤ) : List TunedParams :=
  lookbacks.flatMap fun lb =>
    neurons1.flatMap fun n1 =>
      neurons2.flatMap fun n2 =>
        acts.map fun act =>
          { lookback := lb
            neuronsLayer1 := n1
            neuronsLayer2 := n2
            activation := act
            optimizer :=
              jsIndex optimizers (jsRem ((lb : ℤ) + n1 + n2 + seed) (optimizers.length)) }

/-- Winning candidate record of `tuneHyperparameters`. -/
structure BestResult where
  params : TunedParams
  metrics : Metrics
deriving DecidableEq, Repr, Inhabited

/-- Selection loop of `tuneHyperparameters` (forecast.tsx lines 139-146):
scan the candidates, scoring candidate `i` with sub-seed `seed + i`, and keep
the first candidate whose formatted validation loss is strictly below the
incumbent's. -/
def tuneLoop (history : List AgeSeriesPoint) (seed : ℤ) :
    List TunedParams → ℕ → Option BestResult → Option BestResult
  | [], _, best => best
  | p :: rest, i, best =>
    let m := computeSyntheticMetrics history p (seed + i)
    let best' : Option BestResult :=
      match best with
      | none => some ⟨p, m⟩
      | some b => if m.validationLoss < b.metrics.validationLoss then some ⟨p, m⟩ else some b
    tuneLoop history seed rest (i + 1) best'

/-- Model of `tuneHyperparameters` of forecast.tsx (lines 110-149): the
activation list there contains only ReLU, so the grid has 5 * 4 * 4 * 1 = 80
candidates. -/
def tuneHyperparameters (history : List AgeSeriesPoint) (seed : ℤ) : Option BestResult :=
  tuneLoop history seed (mkCandidates ACTIVATIONS seed) 0 none

/-- Model of `tuneHyperparameters` of part_004 (lines 100-137): same code over
the three-element activation list, so the grid has 5 * 4 * 4 * 3 = 240
candidates. -/
def tuneHyperparametersP4 (history : List AgeSeriesPoint) (seed : ℤ) : Option BestResult :=
  tuneLoop history seed (mkCandidates ACTIVATIONSP4 seed) 0 none

/-- Series point of part_001 (values stay finite rationals there: the base
series years are distinct, so no division by zero arises). -/
structure P1Point where
  year : ℤ
  value : ℚ
deriving DecidableEq, Repr, Inhabited

/-- Hard-coded `baseSeries` table of part_001 (lines 24-50). -/
def baseSeries (country : String) : List P1Point :=
  if country = "ALBANIA" then [⟨2014, 2.9⟩, ⟨2016, 2.4⟩, ⟨2018, 1.8⟩]
  else if country = "USA" then [⟨2014, 12.2⟩, ⟨2016, 12.7⟩, ⟨2018, 13.4⟩]
  else if country = "CANADA" then [⟨2014, 4.2⟩, ⟨2016, 4.5⟩, ⟨2018, 4.8⟩]
  else if country = "JAPAN" then [⟨2014, 1.8⟩, ⟨2016, 2.1⟩, ⟨2018, 2.5⟩]
  else if country = "AUSTRALIA" then [⟨2014, 3.3⟩, ⟨2016, 3.8⟩, ⟨2018, 4.1⟩]
  else []

/-- Loop of part_001's `generateForecast` (lines 74-82): `i` starts at `step`
and advances by `step` while `i <= horizonYears`; `fuel` bounds the number of
iterations. -/
def genAuxP1 (last : P1Point) (slope boost : ℚ) (seed : ℤ) (horizonYears step : ℕ) :
    ℕ → ℕ → List P1Point
  | 0, _ => []
  | fuel + 1, i =>
    if i ≤ horizonYears then
      let year := last.year + i
      let drift := slope * i * boost
      let jitter :=
        ((jsRem seed 5 - 2 : ℤ) : ℚ) * 0.01 * last.value * ((i : ℚ) / horizonYears)
      let noise := 0.02 * last.value * ((i : ℚ) / horizonYears)
      let value := max 0 (last.value + drift - noise + jitter)
      ⟨year, tfix 2 value⟩ :: genAuxP1 last slope boost seed horizonYears step fuel (i + step)
    else []

/-- Model of part_001's `generateForecast` (lines 52-85).  Note `prev` there is
`history[Math.max(0, history.length - lookback)]` (no `- 1`) and the loop step
is `Math.max(1, Math.round(horizonYears / 2))`, so for `horizonYears >= 3` the
function emits fewer than `horizonYears` points. -/
def generateForecast (country : String) (horizonYears : ℕ) (lookback : ℕ)
    (activation : Activation) (seed : ℤ) : List P1Point :=
  let history := baseSeries country
  if history.length = 0 then []
  else
    let last := history.getLastD default
    let prev := history.getD (history.length - lookback) default
    let slope : ℚ :=
      if 1 < history.length then (last.value - prev.value) / ((last.year - prev.year : ℤ) : ℚ)
      else 0
    let boost := activationBoostF activation
    let step := max 1 (⌊(horizonYears : ℚ) / 2 + 1 / 2⌋).toNat
    genAuxP1 last slope boost seed horizonYears step (horizonYears + 1) step

/-- History of the spec's concrete scenario (three points 2018-2020). -/
def histC1 : List AgeSeriesPoint := [⟨2018, 100⟩, ⟨2019, 110⟩, ⟨2020, 120⟩]

/-- Configuration of the spec's concrete scenario: lookback 3, units 64/0,
ReLU. -/
def paramsC1 : TunedParams := ⟨3, 64, 0, .ReLU, some "Adam"⟩

/-- Rolling-series form of `histC1`. -/
def histC1JS : List JSPoint := histC1.map AgeSeriesPoint.toJS

/-- Malformed duplicate-year history (two points in year 2020 with equal
values), the 0/0 slope case. -/
def histDup : List JSPoint := [⟨2020, .num 100⟩, ⟨2020, .num 100⟩]

/-- Duplicate-year history as a loaded series. -/
def histDupQ : List AgeSeriesPoint := [⟨2020, 100⟩, ⟨2020, 100⟩]

/-- Configuration with lookback 1 used on the duplicate-year histories. -/
def paramsLb1 : TunedParams := ⟨1, 64, 0, .ReLU, some "Adam"⟩

/-- Hyperparameter combination as a bare tuple (lookback, units1, units2,
activation), forgetting the seed-dependent optimizer label. -/
def comboOf (p : TunedParams) : ℕ × ℕ × ℕ × Activation :=
  (p.lookback, p.neuronsLayer1, p.neuronsLayer2, p.activation)

/-- Cartesian product of the four fixed hyperparameter sets, as bare tuples,
in the enumeration order of the nested loops. -/
def gridTuples (acts : List Activation) : List (ℕ × ℕ × ℕ × Activation) :=
  lookbacks.flatMap fun lb =>
    neurons1.flatMap fun n1 =>
      neurons2.flatMap fun n2 =>
        acts.map fun act => (lb, n1, n2, act)

/-- Candidate record at index `k` of the selection loop: the `k`-th candidate
together with its metrics at sub-seed `seed + k`. -/
def entryAt (history : List AgeSeriesPoint) (seed : ℤ) (cands : List TunedParams)
    (k : ℕ) : BestResult :=
  ⟨cands.getD k default, computeSyntheticMetrics history (cands.getD k default) (seed + k)⟩

/-- Formatted validation loss the selection loop compares at index `k`. -/
def valAt (history : List AgeSeriesPoint) (seed : ℤ) (cands : List TunedParams)
    (k : ℕ) : ℚ :=
  (entryAt history seed cands k).metrics.validationLoss

set_option maxRecDepth 100000

/-- C8: the Forecast Generator applied to an empty history returns the empty
sequence, for every horizon, configuration and seed. -/
theorem C8_empty_history (h : ℕ) (params : TunedParams) (seed : ℤ) :
    generateForecastFromHistory [] h params seed = [] := rfl

/-- C9: the Selector (both route variants) and the Forecast Generator are pure
functions of their arguments: two calls on identical inputs yield identical
results.  In this embedding both are plain functions, which is faithful to the
source: neither reads any state, clock or random source beside the explicit
seed. -/
theorem C9_determinism (history : List AgeSeriesPoint) (seed : ℤ) (h : ℕ)
    (params : TunedParams) :
    tuneHyperparameters history seed = tuneHyperparameters history seed ∧
    tuneHyperparametersP4 history seed = tuneHyperparametersP4 history seed ∧
    generateForecastFromHistory history h params seed =
      generateForecastFromHistory history h params seed :=
  ⟨rfl, rfl, rfl⟩

/-- C10: for every history, configuration and seed, the numeric
(pre-formatting) validation loss is at least the numeric training loss plus
0.0025 (hence strictly greater), and both losses are at least 0.001; the
formatted metrics returned by `computeSyntheticMetrics` are exactly the
`toFixed(4)` images of these raw losses. -/
theorem C10_loss_gap (history : List AgeSeriesPoint) (params : TunedParams) (seed : ℤ) :
    0.001 ≤ rawTrainingLoss params seed ∧
    0.001 ≤ rawValidationLoss params seed ∧
    rawTrainingLoss params seed + 0.0025 ≤ rawValidationLoss params seed ∧
    rawTrainingLoss params seed < rawValidationLoss params seed ∧
    (computeSyntheticMetrics history params seed).trainingLoss =
      tfix 4 (rawTrainingLoss params seed) ∧
    (computeSyntheticMetrics history params seed).validationLoss =
      tfix 4 (rawValidationLoss params seed) := by
  have h1 : (0.001 : ℚ) ≤ rawTrainingLoss params seed := by
    simp only [rawTrainingLoss]; exact le_max_left _ _
  have h2 : rawTrainingLoss params seed + 0.0025 + |selJitter seed| * 0.5 ≤
      rawValidationLoss params seed := by
    simp only [rawValidationLoss]; exact le_max_right _ _
  have hj : 0 ≤ |selJitter seed| := abs_nonneg _
  have h3 : rawTrainingLoss params seed + 0.0025 ≤ rawValidationLoss params seed := by
    linarith
  have h4 : (0.001 : ℚ) ≤ rawValidationLoss params seed := by
    simp only [rawValidationLoss]; exact le_max_left _ _
  exact ⟨h1, h4, h3, by linarith, rfl, rfl⟩

/-- C1 counterexample: under the code's per-step seeding (`seed + i` with `i`
starting at 1), the first forecast point of the concrete scenario is
{2021, 112}, not {2021, 111} as the claim's trace (which evaluated the jitter
at sub-seed 0) states. -/
theorem C1_counterexample :
    (generateForecastFromHistory histC1 2 paramsC1 0).head? = some ⟨2021, .num 112⟩ ∧
    (generateForecastFromHistory histC1 2 paramsC1 0).head? ≠ some ⟨2021, .num 111⟩ := by
  constructor
  · with_unfolding_all rfl
  · with_unfolding_all decide

/-- C1 amended: in the concrete scenario the step-1 prediction uses baseline
110, reference point {2018, 100}, clamped slope 5, activation boost 1.05,
noise 2.2 and jitter -1.1 (per-step seed 0 + 1 = 1, so ((1 mod 5) - 2) * 0.01
* 110), giving round(110 + 5 * 1.05 - 2.2 - 1.1) = round(111.95) = 112 at
year 2021. -/
theorem C1_amended_trace :
    baselineOf histC1JS 3 = .num 110 ∧
    prevOf histC1JS 3 = ⟨2018, .num 100⟩ ∧
    slopeOf histC1JS 3 = .num 5 ∧
    activationBoostF .ReLU = 1.05 ∧
    ((jsRem (0 + 1) 5 - 2 : ℤ) : ℚ) * 0.01 * 110 = -1.1 ∧
    (0.02 : ℚ) * 110 = 2.2 ∧
    (generateForecastFromHistory histC1 2 paramsC1 0).head? = some ⟨2021, .num 112⟩ := by
  refine ⟨?_, ?_, ?_, ?_, ?_, ?_, ?_⟩ <;> with_unfolding_all rfl

/-- C3: the code does not guard the zero year-delta.  On the duplicate-year
history [{2020,100},{2020,100}] with lookback 1 the raw slope is (100 - 100) /
(2020 - 2020) = 0 / 0 = NaN, which propagates through the clamp and the
rounding, so `predictNextValue` returns NaN — a non-finite value, where the
claim requires slope 0 and a finite result. -/
theorem C3_nan_evaluation :
    rawSlopeOf histDup 1 = .nan ∧
    slopeOf histDup 1 = .nan ∧
    predictNextValue histDup paramsLb1 0 = some .nan := by
  refine ⟨?_, ?_, ?_⟩ <;> with_unfolding_all rfl

/-- C5 counterexample: the part_001 Forecast Generator variant steps by
`max(1, round(horizonYears / 2))`, so for horizon 3 over the non-empty ALBANIA
series it returns a single point instead of three. -/
theorem C5_counterexample :
    baseSeries "ALBANIA" ≠ [] ∧
    (generateForecast "ALBANIA" 3 3 .ReLU 0).length = 1 ∧
    (generateForecast "ALBANIA" 3 3 .ReLU 0).length ≠ 3 := by
  refine ⟨?_, ?_, ?_⟩
  · with_unfolding_all decide
  · with_unfolding_all rfl
  · with_unfolding_all decide

/-- C2: the selection loop compares `Number(metrics.validationLoss)`, i.e. the
4-decimal formatted value, not the underlying numeric loss.  At seed 1 the
part_004 selector returns the first candidate (lookback 2, units 32/0, ReLU,
raw loss 0.011028) although candidate 54 (lookback 3, units 32/32, ReLU,
sub-seed 55) has the strictly smaller raw loss 0.010956 — both format to
0.0110, so the formatted comparison cannot separate them. -/
theorem C2_formatted_comparison_divergence :
    tuneHyperparametersP4 [] 1 =
      some ⟨⟨2, 32, 0, .ReLU, some "SGD"⟩, ⟨0.0073, 0.0110, 0.19⟩⟩ ∧
    (mkCandidates ACTIVATIONSP4 1).getD 54 default = ⟨3, 32, 32, .ReLU, some "SGD"⟩ ∧
    rawValidationLoss ⟨3, 32, 32, .ReLU, some "SGD"⟩ (1 + 54) <
      rawValidationLoss ⟨2, 32, 0, .ReLU, some "SGD"⟩ (1 + 0) := by
  refine ⟨?_, ?_, ?_⟩
  · with_unfolding_all rfl
  · with_unfolding_all rfl
  · with_unfolding_all decide

/-- Helper: the forecast loop always emits exactly `fuel` points. -/
lemma genAux_length (params : TunedParams) (seed startYear : ℤ) :
    ∀ (fuel i : ℕ) (rolling : List JSPoint),
      (genAux params seed startYear fuel i rolling).length = fuel := by
  intro fuel
  induction fuel with
  | zero => intro i rolling; rfl
  | succ n ih => intro i rolling; simp [genAux, ih]

/-- Helper: the `k`-th point of the forecast loop carries year
`startYear + i + k`. -/
lemma genAux_year (params : TunedParams) (seed startYear : ℤ) :
    ∀ (fuel i k : ℕ) (rolling : List JSPoint), k < fuel →
      ((genAux params seed startYear fuel i rolling).getD k default).year =
        startYear + i + k := by
  intro fuel
  induction fuel with
  | zero => intro i k rolling h; exact absurd h (Nat.not_lt_zero k)
  | succ n ih =>
    intro i k rolling hk
    cases k with
    | zero => simp [genAux]
    | succ m =>
      simp only [genAux, List.getD_cons_succ]
      rw [ih (i + 1) m _ (Nat.lt_of_succ_lt_succ hk)]
      push_cast
      ring

/-- C5 amended: the forecast.tsx Forecast Generator returns exactly
`horizonYears` points for every non-empty history, configuration and seed,
the `k`-th at year `lastHistoricalYear + 1 + k`; the part_001 variant
(`generateForecast`) instead steps by `max(1, round(horizonYears / 2))` and
can return fewer points. -/
theorem C5_amended_horizon (history : List AgeSeriesPoint) (h : ℕ)
    (params : TunedParams) (seed : ℤ) (hne : history ≠ []) :
    (generateForecastFromHistory history h params seed).length = h ∧
    ∀ k, k < h →
      ((generateForecastFromHistory history h params seed).getD k default).year =
        (history.getLastD default).year + 1 + k := by
  have hlen : ¬ history.length = 0 := by
    simpa using hne
  unfold generateForecastFromHistory
  rw [if_neg hlen]
  refine ⟨genAux_length _ _ _ _ _ _, ?_⟩
  intro k hk
  rw [genAux_year _ _ _ _ _ _ _ hk]
  push_cast
  ring

/-- C5 witness: the amended horizon theorem applied to the concrete
three-point history with horizon 3. -/
theorem C5_amended_horizon_witness :
    histC1 ≠ [] ∧
    ((generateForecastFromHistory histC1 3 paramsC1 0).length = 3 ∧
      ∀ k, k < 3 →
        ((generateForecastFromHistory histC1 3 paramsC1 0).getD k default).year =
          (histC1.getLastD default).year + 1 + k) :=
  ⟨by simp [histC1], C5_amended_horizon histC1 3 paramsC1 0 (by simp [histC1])⟩

/-- Helper: the metrics stored in the loop entry at index `k`. -/
lemma entryAt_metrics (history : List AgeSeriesPoint) (seed : ℤ)
    (cands : List TunedParams) (k : ℕ) :
    (entryAt history seed cands k).metrics =
      computeSyntheticMetrics history (cands.getD k default) (seed + k) := rfl

/-- Helper: the selection loop, started after a first-minimal prefix incumbent,
ends on the first-enumerated global minimum of the formatted validation loss. -/
lemma tuneLoop_spec (history : List AgeSeriesPoint) (seed : ℤ) (cands : List TunedParams) :
    ∀ (l : List TunedParams) (i k : ℕ),
      cands.drop i = l → k < i → k < cands.length →
      (∀ j, j < i → valAt history seed cands k ≤ valAt history seed cands j) →
      (∀ j, j < k → valAt history seed cands k < valAt history seed cands j) →
      ∃ m, m < cands.length ∧
        tuneLoop history seed l i (some (entryAt history seed cands k)) =
          some (entryAt history seed cands m) ∧
        (∀ j, j < cands.length → valAt history seed cands m ≤ valAt history seed cands j) ∧
        (∀ j, j < m → valAt history seed cands m < valAt history seed cands j) := by
  intro l
  induction l with
  | nil =>
    intro i k hdrop hki hklen hle hlt
    have hlen : cands.length ≤ i := by
      by_contra hlt2
      push_neg at hlt2
      rw [List.drop_eq_getElem_cons hlt2] at hdrop
      exact absurd hdrop (List.cons_ne_nil _ _)
    exact ⟨k, hklen, rfl, fun j hj => hle j (lt_of_lt_of_le hj hlen), hlt⟩
  | cons p rest ih =>
    intro i k hdrop hki hklen hle hlt
    have hi : i < cands.length := by
      by_contra hge
      push_neg at hge
      rw [List.drop_eq_nil_of_le hge] at hdrop
      simp at hdrop
    have hdrop2 := List.drop_eq_getElem_cons hi
    rw [hdrop] at hdrop2
    have hp : p = cands[i] := (List.cons.injEq _ _ _ _ ▸ hdrop2).1
    have hrest : cands.drop (i + 1) = rest := ((List.cons.injEq _ _ _ _ ▸ hdrop2).2).symm
    have hpd : cands.getD i default = p := by
      rw [List.getD_eq_getElem _ _ hi, hp]
    have hentry : (⟨p, computeSyntheticMetrics history p (seed + i)⟩ : BestResult) =
        entryAt history seed cands i := by
      rw [entryAt, hpd]
    have hval : (computeSyntheticMetrics history p (seed + i)).validationLoss =
        valAt history seed cands i := by
      rw [valAt, entryAt_metrics, hpd]
    simp only [tuneLoop]
    by_cases hc : (computeSyntheticMetrics history p (seed + i)).validationLoss <
        (entryAt history seed cands k).metrics.validationLoss
    · rw [if_pos hc, hentry]
      have hci : valAt history seed cands i < valAt history seed cands k := by
        rw [← hval]; exact hc
      exact ih (i + 1) i hrest (Nat.lt_succ_self i) hi
        (fun j hj => by
          rcases Nat.lt_succ_iff_lt_or_eq.mp hj with hj' | hj'
          · exact le_of_lt (lt_of_lt_of_le hci (hle j hj'))
          · subst hj'; exact le_rfl)
        (fun j hj => lt_of_lt_of_le hci (hle j hj))
    · rw [if_neg hc]
      have hki' : valAt history seed cands k ≤ valAt history seed cands i := by
        rw [← hval]; exact le_of_not_lt hc
      exact ih (i + 1) k hrest (Nat.lt_succ_of_lt hki) hklen
        (fun j hj => by
          rcases Nat.lt_succ_iff_lt_or_eq.mp hj with hj' | hj'
          · exact hle j hj'
          · subst hj'; exact hki')
        hlt

/-- Helper: on any non-empty candidate list, the selection loop started from
`none` returns the first-enumerated candidate attaining the minimum formatted
validation loss. -/
lemma tuneLoop_none_spec (history : List AgeSeriesPoint) (seed : ℤ)
    (cands : List TunedParams) (hne : cands ≠ []) :
    ∃ m, m < cands.length ∧
      tuneLoop history seed cands 0 none = some (entryAt history seed cands m) ∧
      (∀ j, j < cands.length → valAt history seed cands m ≤ valAt history seed cands j) ∧
      (∀ j, j < m → valAt history seed cands m < valAt history seed cands j) := by
  obtain ⟨c0, rest, rfl⟩ := List.exists_cons_of_ne_nil hne
  have h0 : (⟨c0, computeSyntheticMetrics history c0 (seed + ((0 : ℕ) : ℤ))⟩ : BestResult) =
      entryAt history seed (c0 :: rest) 0 := by
    simp [entryAt]
  simp only [tuneLoop]
  rw [h0]
  exact tuneLoop_spec history seed (c0 :: rest) rest 1 0 rfl Nat.zero_lt_one
    (by simp) (fun j hj => by have : j = 0 := by omega
                              subst this; exact le_rfl)
    (fun j hj => absurd hj (Nat.not_lt_zero j))

/-- C4 counterexample: the forecast.tsx Selector's activation list contains
only ReLU, so its grid has 5 * 4 * 4 * 1 = 80 candidates, not the 240 the
claim states. -/
theorem C4_counterexample :
    ACTIVATIONS = [.ReLU] ∧
    (mkCandidates ACTIVATIONS 0).length = 80 ∧
    (mkCandidates ACTIVATIONS 0).length ≠ 240 := by
  refine ⟨rfl, rfl, ?_⟩
  have h80 : (mkCandidates ACTIVATIONS 0).length = 80 := rfl
  omega

set_option maxHeartbeats 4000000 in
/-- C4 amended: for every history and seed, both Selector variants enumerate
the full Cartesian product of the fixed hyperparameter sets in nested order —
240 candidates in part_004 (three activation kinds), 80 in forecast.tsx (ReLU
only) — with each combination appearing exactly once; candidate `m` is scored
with sub-seed `seed + m`, and the returned candidate is the first-enumerated
one attaining the minimum formatted validation loss: every earlier candidate
has a strictly larger loss (strict less-than comparison), so exact ties go to
the earlier-enumerated candidate. -/
theorem C4_amended_grid (history : List AgeSeriesPoint) (seed : ℤ) :
    (mkCandidates ACTIVATIONSP4 seed).length = 240 ∧
    (mkCandidates ACTIVATIONS seed).length = 80 ∧
    (mkCandidates ACTIVATIONSP4 seed).map comboOf = gridTuples ACTIVATIONSP4 ∧
    (mkCandidates ACTIVATIONS seed).map comboOf = gridTuples ACTIVATIONS ∧
    (gridTuples ACTIVATIONSP4).Nodup ∧
    (gridTuples ACTIVATIONS).Nodup ∧
    (∀ lb ∈ lookbacks, ∀ n1 ∈ neurons1, ∀ n2 ∈ neurons2, ∀ act ∈ ACTIVATIONSP4,
      (lb, n1, n2, act) ∈ gridTuples ACTIVATIONSP4) ∧
    (∀ lb ∈ lookbacks, ∀ n1 ∈ neurons1, ∀ n2 ∈ neurons2, ∀ act ∈ ACTIVATIONS,
      (lb, n1, n2, act) ∈ gridTuples ACTIVATIONS) ∧
    (∃ m, m < 240 ∧
      tuneHyperparametersP4 history seed =
        some (entryAt history seed (mkCandidates ACTIVATIONSP4 seed) m) ∧
      (∀ j, j < 240 →
        valAt history seed (mkCandidates ACTIVATIONSP4 seed) m ≤
          valAt history seed (mkCandidates ACTIVATIONSP4 seed) j) ∧
      (∀ j, j < m →
        valAt history seed (mkCandidates ACTIVATIONSP4 seed) m <
          valAt history seed (mkCandidates ACTIVATIONSP4 seed) j)) ∧
    (∃ m, m < 80 ∧
      tuneHyperparameters history seed =
        some (entryAt history seed (mkCandidates ACTIVATIONS seed) m) ∧
      (∀ j, j < 80 →
        valAt history seed (mkCandidates ACTIVATIONS seed) m ≤
          valAt history seed (mkCandidates ACTIVATIONS seed) j) ∧
      (∀ j, j < m →
        valAt history seed (mkCandidates ACTIVATIONS seed) m <
          valAt history seed (mkCandidates ACTIVATIONS seed) j)) := by
  have hlen3 : (mkCandidates ACTIVATIONSP4 seed).length = 240 := rfl
  have hlen1 : (mkCandidates ACTIVATIONS seed).length = 80 := rfl
  have hnodup3 : (gridTuples ACTIVATIONSP4).Nodup := by decide
  have hnodup1 : (gridTuples ACTIVATIONS).Nodup := by decide
  have hne3 : mkCandidates ACTIVATIONSP4 seed ≠ [] := by
    intro h
    rw [h] at hlen3
    exact absurd hlen3 (by norm_num)
  have hne1 : mkCandidates ACTIVATIONS seed ≠ [] := by
    intro h
    rw [h] at hlen1
    exact absurd hlen1 (by norm_num)
  obtain ⟨m3, hm3, heq3, hmin3, hfirst3⟩ := tuneLoop_none_spec history seed _ hne3
  obtain ⟨m1, hm1, heq1, hmin1, hfirst1⟩ := tuneLoop_none_spec history seed _ hne1
  rw [hlen3] at hm3
  rw [hlen1] at hm1
  refine ⟨hlen3, hlen1, rfl, rfl, hnodup3, hnodup1, by decide, by decide,
    ⟨m3, hm3, heq3, fun j hj => hmin3 j (by rw [hlen3]; exact hj), hfirst3⟩,
    ⟨m1, hm1, heq1, fun j hj => hmin1 j (by rw [hlen1]; exact hj), hfirst1⟩⟩

/-- Helper: the last element (with default) of a non-empty list is a member. -/
lemma getLastD_mem {α : Type} : ∀ (l : List α) (d : α), l ≠ [] → l.getLastD d ∈ l
  | [], _, h => absurd rfl h
  | [a], d, _ => by simp [List.getLastD]
  | a :: b :: t, d, _ => by
    have ih := getLastD_mem (b :: t) a (List.cons_ne_nil _ _)
    simp only [List.getLastD]
    exact List.mem_cons_of_mem _ ih

/-- Helper: folding JavaScript addition over finite values from a finite start
stays finite. -/
lemma foldl_add_finite :
    ∀ (w : List JSPoint) (a : ℚ), (∀ p ∈ w, ∃ q : ℚ, p.value = .num q) →
      ∃ s : ℚ, w.foldl (fun s p => JSNum.add s p.value) (.num a) = .num s
  | [], a, _ => ⟨a, rfl⟩
  | p :: t, a, hv => by
    obtain ⟨q, hq⟩ := hv p (List.mem_cons_self _ _)
    have ih := foldl_add_finite t (a + q) fun r hr => hv r (List.mem_cons_of_mem _ hr)
    simpa [List.foldl_cons, hq, JSNum.add] using ih

/-- Helper: folding JavaScript addition over nonnegative finite values from a
nonnegative finite start stays finite and nonnegative. -/
lemma foldl_add_nonneg :
    ∀ (w : List JSPoint) (a : ℚ), 0 ≤ a →
      (∀ p ∈ w, ∃ q : ℚ, p.value = .num q ∧ 0 ≤ q) →
      ∃ s : ℚ, 0 ≤ s ∧ w.foldl (fun s p => JSNum.add s p.value) (.num a) = .num s
  | [], a, ha, _ => ⟨a, ha, rfl⟩
  | p :: t, a, ha, hv => by
    obtain ⟨q, hq, hq0⟩ := hv p (List.mem_cons_self _ _)
    have ih := foldl_add_nonneg t (a + q) (by linarith)
      fun r hr => hv r (List.mem_cons_of_mem _ hr)
    simpa [List.foldl_cons, hq, JSNum.add] using ih

/-- Helper: the baseline of a non-empty all-finite rolling series is finite. -/
lemma baselineOf_num (history : List JSPoint) (lb : ℕ) (hne : history ≠ [])
    (hv : ∀ p ∈ history, ∃ q : ℚ, p.value = .num q) :
    ∃ b : ℚ, baselineOf history lb = .num b := by
  unfold baselineOf windowOf
  by_cases hw : 0 < (history.drop (history.length - lb)).length
  · rw [if_pos hw]
    obtain ⟨s, hs⟩ := foldl_add_finite (history.drop (history.length - lb)) 0
      fun p hp => hv p (List.drop_subset _ _ hp)
    rw [hs]
    have hlen : ((history.drop (history.length - lb)).length : ℚ) ≠ 0 := by
      exact_mod_cast Nat.pos_iff_ne_zero.mp hw
    refine ⟨s / ((history.drop (history.length - lb)).length : ℚ), ?_⟩
    simp only [JSNum.div]
    rw [if_neg hlen]
  · rw [if_neg hw]
    exact hv _ (getLastD_mem _ _ hne)

/-- Helper: the baseline of a non-empty rolling series with finite
nonnegative values is finite and nonnegative. -/
lemma baselineOf_nonneg (history : List JSPoint) (lb : ℕ) (hne : history ≠ [])
    (hv : ∀ p ∈ history, ∃ q : ℚ, p.value = .num q ∧ 0 ≤ q) :
    ∃ b : ℚ, 0 ≤ b ∧ baselineOf history lb = .num b := by
  unfold baselineOf windowOf
  by_cases hw : 0 < (history.drop (history.length - lb)).length
  · rw [if_pos hw]
    obtain ⟨s, hs0, hs⟩ := foldl_add_nonneg (history.drop (history.length - lb)) 0 le_rfl
      fun p hp => hv p (List.drop_subset _ _ hp)
    rw [hs]
    have hlen : ((history.drop (history.length - lb)).length : ℚ) ≠ 0 := by
      exact_mod_cast Nat.pos_iff_ne_zero.mp hw
    have hlen0 : (0 : ℚ) ≤ ((history.drop (history.length - lb)).length : ℚ) := by positivity
    refine ⟨s / ((history.drop (history.length - lb)).length : ℚ), by positivity, ?_⟩
    simp only [JSNum.div]
    rw [if_neg hlen]
  · rw [if_neg hw]
    obtain ⟨q, hq, hq0⟩ := hv _ (getLastD_mem _ _ hne)
    exact ⟨q, hq0, hq⟩

/-- C7 counterexample: on the duplicate-year history with lookback 1 the slope
term is NaN (0/0), so there is no rational slope value at all, in particular
none with magnitude at most 0.5 * baseline = 50. -/
theorem C7_counterexample :
    slopeOf histDup 1 = .nan ∧
    baselineOf histDup 1 = .num 100 ∧
    ¬ ∃ s : ℚ, slopeOf histDup 1 = .num s ∧ |s| ≤ 0.5 * 100 := by
  refine ⟨?_, ?_, ?_⟩
  · with_unfolding_all rfl
  · with_unfolding_all rfl
  · rintro ⟨s, hs, _⟩
    have h : slopeOf histDup 1 = .nan := by with_unfolding_all rfl
    rw [h] at hs
    exact JSNum.noConfusion hs

/-- C7 amended: for every input series with finite nonnegative values whose
raw slope is not the indeterminate 0/0 case (in particular, any series with
pairwise-distinct years), the clamped slope term is a finite value of
magnitude at most 0.5 * baseline. -/
theorem C7_amended_slope_clamp (history : List JSPoint) (lb : ℕ)
    (hne : history ≠ [])
    (hv : ∀ p ∈ history, ∃ q : ℚ, p.value = .num q ∧ 0 ≤ q)
    (hnn : rawSlopeOf history lb ≠ .nan) :
    ∃ s b : ℚ, slopeOf history lb = .num s ∧ baselineOf history lb = .num b ∧
      0 ≤ b ∧ |s| ≤ 0.5 * b := by
  obtain ⟨b, hb0, hb⟩ := baselineOf_nonneg history lb hne hv
  unfold slopeOf
  rw [hb]
  rcases hr : rawSlopeOf history lb with r | _ | _ | _
  · refine ⟨max (-b * 0.5) (min (b * 0.5) r), b, ?_, rfl, hb0, ?_⟩
    · simp [JSNum.mul, JSNum.neg, JSNum.jsMin, JSNum.jsMax]
    · have h1 : -b * 0.5 ≤ max (-b * 0.5) (min (b * 0.5) r) := le_max_left _ _
      have h2 : max (-b * 0.5) (min (b * 0.5) r) ≤ b * 0.5 :=
        max_le (by linarith) (le_trans (min_le_left _ _) le_rfl)
      rw [abs_le]
      constructor <;> linarith
  · refine ⟨b * 0.5, b, ?_, rfl, hb0, ?_⟩
    · have hle : -b * 0.5 ≤ b * 0.5 := by linarith
      simp [JSNum.mul, JSNum.neg, JSNum.jsMin, JSNum.jsMax, max_eq_right hle]
      linarith
    · rw [abs_le]
      constructor <;> linarith
  · refine ⟨-b * 0.5, b, ?_, rfl, hb0, ?_⟩
    · simp [JSNum.mul, JSNum.neg, JSNum.jsMin, JSNum.jsMax]
    · rw [abs_le]
      constructor <;> linarith
  · exact absurd hr hnn

/-- C7 witness: the amended slope-clamp theorem applied to the concrete
three-point history with lookback 3 (slope 5, baseline 110). -/
theorem C7_amended_slope_clamp_witness :
    histC1JS ≠ [] ∧
    (∀ p ∈ histC1JS, ∃ q : ℚ, p.value = .num q ∧ 0 ≤ q) ∧
    rawSlopeOf histC1JS 3 ≠ .nan ∧
    (∃ s b : ℚ, slopeOf histC1JS 3 = .num s ∧ baselineOf histC1JS 3 = .num b ∧
      0 ≤ b ∧ |s| ≤ 0.5 * b) := by
  have h1 : histC1JS ≠ [] := by simp [histC1JS, histC1]
  have h2 : ∀ p ∈ histC1JS, ∃ q : ℚ, p.value = .num q ∧ 0 ≤ q := by
    intro p hp
    simp only [histC1JS, histC1, List.map_cons, List.map_nil, AgeSeriesPoint.toJS,
      List.mem_cons, List.not_mem_nil, or_false] at hp
    rcases hp with h | h | h <;> subst h
    · exact ⟨100, rfl, by norm_num⟩
    · exact ⟨110, rfl, by norm_num⟩
    · exact ⟨120, rfl, by norm_num⟩
  have h3 : rawSlopeOf histC1JS 3 ≠ .nan := by
    have : rawSlopeOf histC1JS 3 = .num 5 := by with_unfolding_all rfl
    rw [this]
    exact fun h => JSNum.noConfusion h
  exact ⟨h1, h2, h3, C7_amended_slope_clamp histC1JS 3 h1 h2 h3⟩

/-- Helper: the last element (with default) is the element at index
`length - 1`. -/
lemma getLastD_eq_getD {α : Type} (l : List α) (d d' : α) (h : l ≠ []) :
    l.getLastD d = l.getD (l.length - 1) d' := by
  have hlt : l.length - 1 < l.length := by
    have : 0 < l.length := List.length_pos.mpr h
    omega
  rw [List.getD_eq_getElem _ _ hlt, ← List.getLast_eq_getElem l h]
  cases l with
  | nil => exact absurd rfl h
  | cons a t => rfl

/-- Helper: the reference point of a non-empty rolling series is a member. -/
lemma prevOf_mem (history : List JSPoint) (lb : ℕ) (hne : history ≠ []) :
    prevOf history lb ∈ history := by
  unfold prevOf
  have hlen : history.length - lb - 1 < history.length := by
    have : 0 < history.length := List.length_pos.mpr hne
    omega
  rw [List.getD_eq_getElem _ _ hlen]
  exact List.getElem_mem _

/-- Helper: in a year-sorted rolling series, points at earlier indices carry
strictly smaller years. -/
lemma pairwise_getD_year (l : List JSPoint)
    (h : List.Pairwise (fun p q : JSPoint => p.year < q.year) l) (i j : ℕ)
    (hij : i < j) (hj : j < l.length) :
    (l.getD i default).year < (l.getD j default).year := by
  have hi : i < l.length := lt_trans hij hj
  rw [List.getD_eq_getElem _ _ hi, List.getD_eq_getElem _ _ hj]
  exact List.pairwise_iff_getElem.mp h i j hi hj hij

/-- Helper: the raw slope of an all-finite series with distinct last/reference
years is never NaN. -/
lemma rawSlopeOf_ne_nan (history : List JSPoint) (lb : ℕ) (hne : history ≠ [])
    (hv : ∀ p ∈ history, ∃ q : ℚ, p.value = .num q)
    (hΔ : 1 < history.length → (lastOf history).year ≠ (prevOf history lb).year) :
    rawSlopeOf history lb ≠ .nan := by
  unfold rawSlopeOf
  split
  case isTrue h1 =>
    obtain ⟨b, hb⟩ := baselineOf_num history lb hne hv
    obtain ⟨pv, hpv⟩ := hv _ (prevOf_mem history lb hne)
    have hΔq : (((lastOf history).year - (prevOf history lb).year : ℤ) : ℚ) ≠ 0 :=
      Int.cast_ne_zero.mpr (sub_ne_zero.mpr (hΔ h1))
    rw [hb, hpv]
    simp only [JSNum.sub, JSNum.neg, JSNum.add, JSNum.div]
    rw [if_neg hΔq]
    simp
  case isFalse =>
    simp

/-- Helper: the clamped slope is finite whenever the baseline is finite and
the raw slope is not NaN. -/
lemma slopeOf_num (history : List JSPoint) (lb : ℕ) (b : ℚ)
    (hb : baselineOf history lb = .num b) (hnn : rawSlopeOf history lb ≠ .nan) :
    ∃ s : ℚ, slopeOf history lb = .num s := by
  unfold slopeOf
  rw [hb]
  rcases hr : rawSlopeOf history lb with r | _ | _ | _
  · exact ⟨max (-b * 0.5) (min (b * 0.5) r), by
      simp only [JSNum.mul, JSNum.neg, JSNum.jsMin, JSNum.jsMax]⟩
  · exact ⟨max (-b * 0.5) (b * 0.5), by
      simp only [JSNum.mul, JSNum.neg, JSNum.jsMin, JSNum.jsMax]⟩
  · exact ⟨-b * 0.5, by
      simp only [JSNum.mul, JSNum.neg, JSNum.jsMin, JSNum.jsMax]⟩
  · exact absurd hr hnn

/-- Helper: the full prediction arithmetic on finite inputs is finite. -/
lemma chain_num (b s bst c : ℚ) :
    ∃ x : ℚ,
      JSNum.add
        (JSNum.sub (JSNum.add (.num b) (JSNum.mul (.num s) (.num bst)))
          (JSNum.mul (.num 0.02) (.num b)))
        (JSNum.mul (JSNum.mul (.num c) (.num 0.01)) (.num b)) = .num x :=
  ⟨_, rfl⟩

/-- Helper: clamping at zero and rounding a finite value yields a natural
number. -/
lemma jsRound_max0_nat (x : ℚ) :
    ∃ n : ℕ, JSNum.jsRound (JSNum.jsMax (.num 0) (.num x)) = .num (n : ℚ) := by
  refine ⟨(⌊max 0 x + 1 / 2⌋).toNat, ?_⟩
  have h0 : (0 : ℤ) ≤ ⌊max 0 x + 1 / 2⌋ := by
    apply Int.floor_nonneg.mpr
    have := le_max_left (0 : ℚ) x
    linarith
  simp only [JSNum.jsMax, JSNum.jsRound]
  rw [← Int.cast_natCast, Int.toNat_of_nonneg h0]

/-- Helper: on a non-empty all-finite rolling series whose raw slope is not
NaN, `predictNextValue` returns a nonnegative integer. -/
lemma predictNextValue_nat (history : List JSPoint) (params : TunedParams) (seed : ℤ)
    (hne : history ≠ [])
    (hv : ∀ p ∈ history, ∃ q : ℚ, p.value = .num q)
    (hnn : rawSlopeOf history params.lookback ≠ .nan) :
    ∃ n : ℕ, predictNextValue history params seed = some (.num (n : ℚ)) := by
  obtain ⟨b, hb⟩ := baselineOf_num history params.lookback hne hv
  obtain ⟨s, hs⟩ := slopeOf_num history params.lookback b hb hnn
  have hlen : ¬ history.length = 0 := by simpa using hne
  simp only [predictNextValue]
  rw [if_neg hlen, hb, hs]
  obtain ⟨x, hx⟩ := chain_num b s (activationBoostF params.activation)
    ((jsRem seed 5 - 2 : ℤ) : ℚ)
  rw [hx]
  obtain ⟨n, hn⟩ := jsRound_max0_nat x
  exact ⟨n, by rw [hn]⟩

/-- Helper: in a year-sorted loaded series, every point's year is at most the
last point's year. -/
lemma pairwise_year_le_getLastD :
    ∀ (l : List AgeSeriesPoint) (d : AgeSeriesPoint),
      List.Pairwise (fun p q : AgeSeriesPoint => p.year < q.year) l →
      ∀ p ∈ l, p.year ≤ (l.getLastD d).year
  | [], _, _, p, hp => absurd hp (List.not_mem_nil p)
  | [a], d, _, p, hp => by
    simp only [List.mem_singleton] at hp
    subst hp
    exact le_rfl
  | a :: b :: t, d, hpair, p, hp => by
    have htail := (List.pairwise_cons.mp hpair).2
    have hhead := (List.pairwise_cons.mp hpair).1
    have hlast : (a :: b :: t).getLastD d = (b :: t).getLastD a := rfl
    rcases List.mem_cons.mp hp with hpa | hp'
    · subst hpa
      have hmem := getLastD_mem (b :: t) p (List.cons_ne_nil _ _)
      rw [hlast]
      exact le_of_lt (hhead _ hmem)
    · rw [hlast]
      exact pairwise_year_le_getLastD (b :: t) a htail p hp'

/-- Helper: the rolling-series invariant of the forecast loop — non-empty,
all-finite, year-sorted, years bounded by the next forecast year — forces
every emitted point to carry a nonnegative integer value. -/
lemma genAux_values (params : TunedParams) (seed startYear : ℤ)
    (hlb : 1 ≤ params.lookback) :
    ∀ (fuel i : ℕ) (rolling : List JSPoint),
      rolling ≠ [] →
      (∀ p ∈ rolling, ∃ q : ℚ, p.value = .num q) →
      List.Pairwise (fun p q : JSPoint => p.year < q.year) rolling →
      (∀ p ∈ rolling, p.year < startYear + i) →
      ∀ p ∈ genAux params seed startYear fuel i rolling, ∃ n : ℕ, p.value = .num (n : ℚ) := by
  intro fuel
  induction fuel with
  | zero =>
    intro i rolling _ _ _ _ p hp
    simp [genAux] at hp
  | succ m ih =>
    intro i rolling hne hv hpair hbound p hp
    have hΔ : 1 < rolling.length → (lastOf rolling).year ≠ (prevOf rolling params.lookback).year := by
      intro h1
      have hip : rolling.length - params.lookback - 1 < rolling.length - 1 := by omega
      have hil : rolling.length - 1 < rolling.length := by omega
      have hlt := pairwise_getD_year rolling hpair (rolling.length - params.lookback - 1)
        (rolling.length - 1) hip hil
      have hlast : lastOf rolling = rolling.getD (rolling.length - 1) default :=
        getLastD_eq_getD rolling default default hne
      rw [hlast]
      exact ne_of_gt hlt
    have hnn : rawSlopeOf rolling params.lookback ≠ .nan :=
      rawSlopeOf_ne_nan rolling params.lookback hne hv hΔ
    obtain ⟨n, hn⟩ := predictNextValue_nat rolling params (seed + i) hne hv hnn
    have hval : JSNum.jsMax (.num 0)
        ((predictNextValue rolling params (seed + i)).getD (.num 0)) = .num (n : ℚ) := by
      rw [hn]
      have hn0 : (0 : ℚ) ≤ (n : ℚ) := by positivity
      simp [JSNum.jsMax, max_eq_right hn0]
    simp only [genAux] at hp
    rw [hval] at hp
    rcases List.mem_cons.mp hp with rfl | hp'
    · exact ⟨n, rfl⟩
    · refine ih (i + 1) (rolling ++ [⟨startYear + i, .num (n : ℚ)⟩]) ?_ ?_ ?_ ?_ p hp'
      · simp
      · intro r hr
        rcases List.mem_append.mp hr with hr' | hr'
        · exact hv r hr'
        · simp only [List.mem_singleton] at hr'
          subst hr'
          exact ⟨n, rfl⟩
      · refine List.pairwise_append.mpr ⟨hpair, List.pairwise_singleton _ _, ?_⟩
        intro a ha b hb
        simp only [List.mem_singleton] at hb
        subst hb
        exact hbound a ha
      · intro r hr
        rcases List.mem_append.mp hr with hr' | hr'
        · have := hbound r hr'
          push_cast
          push_cast at this
          linarith
        · simp only [List.mem_singleton] at hr'
          subst hr'
          push_cast
          linarith

/-- C6 counterexample: on the duplicate-year two-point history with lookback
1 and horizon 1, the unguarded 0/0 slope makes the single forecast value NaN,
which is neither nonnegative nor an integer. -/
theorem C6_counterexample :
    generateForecastFromHistory histDupQ 1 paramsLb1 0 = [⟨2021, .nan⟩] ∧
    ¬ ∀ p ∈ generateForecastFromHistory histDupQ 1 paramsLb1 0,
        ∃ n : ℕ, p.value = .num (n : ℚ) := by
  have h : generateForecastFromHistory histDupQ 1 paramsLb1 0 = [⟨2021, .nan⟩] := by
    with_unfolding_all rfl
  refine ⟨h, ?_⟩
  intro hall
  obtain ⟨n, hn⟩ := hall ⟨2021, .nan⟩ (by rw [h]; exact List.mem_singleton_self _)
  exact JSNum.noConfusion hn

/-- C6 amended: for every non-empty history with strictly ascending years,
every configuration with positive lookback (as the data model requires), and
every horizon and seed, every value in the Forecast Generator's output is a
nonnegative integer. -/
theorem C6_amended_nonneg_int (history : List AgeSeriesPoint) (h : ℕ)
    (params : TunedParams) (seed : ℤ) (hne : history ≠ [])
    (hasc : List.Pairwise (fun p q : AgeSeriesPoint => p.year < q.year) history)
    (hlb : 1 ≤ params.lookback) :
    ∀ p ∈ generateForecastFromHistory history h params seed,
      ∃ n : ℕ, p.value = .num (n : ℚ) := by
  have hlen : ¬ history.length = 0 := by simpa using hne
  unfold generateForecastFromHistory
  rw [if_neg hlen]
  apply genAux_values params seed _ hlb h 1 (history.map AgeSeriesPoint.toJS)
  · simpa using hne
  · intro p hp
    obtain ⟨q, _, rfl⟩ := List.mem_map.mp hp
    exact ⟨q.value, rfl⟩
  · rw [List.pairwise_map]
    exact hasc
  · intro p hp
    obtain ⟨q, hq, rfl⟩ := List.mem_map.mp hp
    have hle := pairwise_year_le_getLastD history default hasc q hq
    have : (AgeSeriesPoint.toJS q).year = q.year := rfl
    rw [this]
    push_cast
    omega

/-- C6 witness: the amended nonnegativity theorem applied to the concrete
three-point ascending history with lookback 3, horizon 2, seed 0. -/
theorem C6_amended_nonneg_int_witness :
    histC1 ≠ [] ∧
    List.Pairwise (fun p q : AgeSeriesPoint => p.year < q.year) histC1 ∧
    1 ≤ paramsC1.lookback ∧
    ∀ p ∈ generateForecastFromHistory histC1 2 paramsC1 0,
      ∃ n : ℕ, p.value = .num (n : ℚ) := by
  have h1 : histC1 ≠ [] := by simp [histC1]
  have h2 : List.Pairwise (fun p q : AgeSeriesPoint => p.year < q.year) histC1 := by
    simp [histC1, List.pairwise_cons]
  have h3 : 1 ≤ paramsC1.lookback := by norm_num [paramsC1]
  exact ⟨h1, h2, h3, C6_amended_nonneg_int histC1 2 paramsC1 0 h1 h2 h3⟩
